import Mathlib

/-!
Verification of the RecursiveDriftEngine simulation core.

This file gives a shallow embedding, in Lean, of the parts of the Python
sources `drift_engine.py`, `alchemy_system.py` and `glyphs.py` that the
specification talks about, and proves or refutes the specified properties.

Modelling conventions:
* Python `float` values are modelled as exact rationals (`ℚ`); Python `int`
  as `ℤ`.  Python strings are modelled as `String`, except where a claim
  needs character-level surgery, where `List Char` (the code points of the
  string) is used.
* Every call to the `random` module is modelled as an oracle input: the
  drawn value is a parameter of the embedded function, so theorems quantify
  over all possible draws.
* `datetime.now(...).isoformat()` timestamps are likewise oracle inputs.
* Python dictionaries hold their entries in insertion order; they are
  modelled as association lists (`List (String × _)`), with dictionary
  lookup as the first entry whose key matches.
-/

namespace RDE

/-- A Python value as stored in the ad hoc `Dict[str, Any]` records that the
engine passes around (fork records, collapse results, anomaly echoes).
Strings carry their code points as a `List Char`.  Python `bool` gets its own
constructor, but note that `isinstance(True, int)` holds in Python, which
matters for the numeric branch of the fracture engine. -/
inductive Value where
  | VStr : List Char → Value
  | VInt : Int → Value
  | VFloat : ℚ → Value
  | VBool : Bool → Value
  | VList : List Value → Value
  | VDict : List (String × Value) → Value

/-- A `Dict[str, Any]` record: an insertion-ordered association list. -/
abbrev Record := List (String × Value)

/-- The per-value corruption performed by `DriftEngine._fracture_data`
(src/drift_engine.py lines 252-265) on a field that was selected for
corruption.  Strings longer than 3 characters keep their first
`len(value)//2` characters and get `len(value)//2` block glyphs appended;
shorter strings are fully replaced by `len(value)` block glyphs; numeric
values (including `bool`, an `int` subclass in Python) become the
placeholder string `###`; lists keep their first half and get `len//2`
one-block-glyph strings appended; anything else becomes five block
glyphs. -/
def corrupt_value : Value → Value
  | .VStr s =>
      if s.length > 3 then
        .VStr (s.take (s.length / 2) ++ List.replicate (s.length / 2) '█')
      else
        .VStr (List.replicate s.length '█')
  | .VInt _ => .VStr ['#', '#', '#']
  | .VFloat _ => .VStr ['#', '#', '#']
  | .VBool _ => .VStr ['#', '#', '#']
  | .VList l => .VList (l.take (l.length / 2) ++ List.replicate (l.length / 2) (.VStr ['█']))
  | .VDict _ => .VStr (List.replicate 5 '█')

/-- `DriftEngine._fracture_data` (src/drift_engine.py lines 247-269).
For each field of the input record, `random.random() < 0.3` decides whether
the field is corrupted; the outcome of that per-key draw is the oracle
`sel`.  The function builds a fresh record and only reads the input. -/
def fracture_data (sel : String → Bool) (data : Record) : Record :=
  data.map fun kv => if sel kv.1 then (kv.1, corrupt_value kv.2) else kv

/-- Lexicographic order on code-point lists: the order Python uses to
compare two strings when `sorted` sorts a string list. -/
def chars_le : List Char → List Char → Bool
  | [], _ => true
  | _ :: _, [] => false
  | a :: as, b :: bs =>
      if a < b then true
      else if b < a then false
      else chars_le as bs

/-- Python string comparison `a <= b`: code-point lexicographic order. -/
def py_str_le (a b : String) : Prop := chars_le a.data b.data = true

instance (a b : String) : Decidable (py_str_le a b) := by
  unfold py_str_le; infer_instance

/-- `AlchemySystem._generate_pattern_key` (src/alchemy_system.py lines
161-170).  The glyph list is sorted (Python sorts strings lexicographically
by code point), concatenated, hashed, and the key string
`pattern_{len(glyphs)}_{hash}` is returned.  The hash is
`hashlib.md5(pattern_string.encode()).hexdigest()` — an external library
function, modelled as the oracle-style parameter `hexdigest` giving the
digest characters of a string; the `[:8]` truncation is kept explicit. -/
def generate_pattern_key (hexdigest : String → List Char) (glyphs : List String) : String :=
  let sorted_glyphs := List.insertionSort py_str_le glyphs
  let pattern_string := String.join sorted_glyphs
  let pattern_hash := (hexdigest pattern_string).take 8
  ⟨"pattern_".data ++ Nat.toDigits 10 glyphs.length ++ '_' :: pattern_hash⟩

/-- Python dictionary lookup on an insertion-ordered association list:
the value of the first entry whose key matches, if any. -/
def assoc_find {α : Type} (l : List (String × α)) (k : String) : Option α :=
  (l.find? fun kv => kv.1 == k).map (·.2)

/-- Python dictionary assignment `d[k] = v`: overwrite in place if the key
is present, append a new entry otherwise. -/
def dict_insert {α : Type} (l : List (String × α)) (k : String) (v : α) : List (String × α) :=
  if (assoc_find l k).isSome then l.map (fun kv => if kv.1 == k then (k, v) else kv)
  else l ++ [(k, v)]

/-- Python `round(x, ndigits)` (ties to even).  The source applies it to
binary floating-point values; this model applies the same rounding rule to
exact rationals. -/
def py_round (ndigits : Nat) (q : ℚ) : ℚ :=
  let m : ℚ := (10 : ℚ) ^ ndigits
  let x := q * m
  let f : ℤ := ⌊x⌋
  let r : ℚ := x - f
  let n : ℤ := if r < 1 / 2 then f else if r > 1 / 2 then f + 1 else if f % 2 = 0 then f else f + 1
  (n : ℚ) / m

/-- `GlyphManager.get_all_glyphs` (src/glyphs.py): a copy of the base glyph
set `["▲", "⊗", "≈", "∇", "∆"]`. -/
def base_glyphs : List String := ["▲", "⊗", "≈", "∇", "∆"]

/-- A combination record as stored in `AlchemySystem.known_combinations`:
result glyph, name, property tags, potency, stability and entropy cost. -/
structure CombRecord where
  result_glyph : String
  name : String
  properties : List String
  potency : ℚ
  stability : ℚ
  entropy_cost : ℚ
  deriving DecidableEq

/-- The seed combinations of `AlchemySystem.initialize_base_combinations`
(src/alchemy_system.py lines 33-86), written out with
`base_glyphs[0..4] = ▲ ⊗ ≈ ∇ ∆` substituted. -/
def fundamental_patterns : List (List String × CombRecord) :=
  [(["▲", "⊗"],
    { result_glyph := "⚡", name := "Void Lightning",
      properties := ["energy", "piercing", "unstable"],
      potency := 0.7, stability := 0.4, entropy_cost := 0.1 }),
   (["⊗", "≈"],
    { result_glyph := "∾", name := "Infinite Spiral",
      properties := ["recursive", "growth", "time"],
      potency := 0.6, stability := 0.8, entropy_cost := 0.15 }),
   (["≈", "∇"],
    { result_glyph := "◊", name := "Crystal Resonance",
      properties := ["structure", "amplification", "memory"],
      potency := 0.8, stability := 0.9, entropy_cost := 0.05 }),
   (["▲", "⊗", "≈"],
    { result_glyph := "⟐", name := "Triadic Void",
      properties := ["balance", "synthesis", "transcendence"],
      potency := 0.9, stability := 0.6, entropy_cost := 0.25 }),
   (["⊗", "∇", "∆"],
    { result_glyph := "⧨", name := "Convergent Matrix",
      properties := ["convergence", "power", "danger"],
      potency := 1.0, stability := 0.3, entropy_cost := 0.4 })]

/-- `self.known_combinations` right after `initialize_base_combinations`:
each seed pattern stored under its generated pattern key. -/
def initial_known_combinations (hexdigest : String → List Char) : List (String × CombRecord) :=
  fundamental_patterns.foldl
    (fun acc p => dict_insert acc (generate_pattern_key hexdigest p.1) p.2) []

/-- `elemental_assignments` of `initialize_elemental_system`
(src/alchemy_system.py lines 88-101). -/
def elemental_assignments : List (String × String) :=
  [("▲", "void"), ("⊗", "energy"), ("≈", "flow"), ("∇", "stability"), ("∆", "change")]

/-- The `resonance_rules` table of `_calculate_elemental_resonance`
(src/alchemy_system.py lines 115-128). -/
def resonance_rules : List ((String × String) × ℚ) :=
  [(("void", "energy"), 0.8), (("void", "flow"), 0.3), (("void", "stability"), 0.1),
   (("void", "change"), 0.9), (("energy", "flow"), 0.7), (("energy", "stability"), 0.2),
   (("energy", "change"), 0.8), (("flow", "stability"), 0.4), (("flow", "change"), 0.6),
   (("stability", "change"), 0.1)]

/-- `AlchemySystem._calculate_elemental_resonance`: look the pair up in the
rules table, then the reversed pair, defaulting to `0.5`. -/
def calculate_elemental_resonance (elem1 elem2 : String) : ℚ :=
  let lookup := fun k : String × String => (resonance_rules.find? fun kv => kv.1 == k).map (·.2)
  (lookup (elem1, elem2)).getD ((lookup (elem2, elem1)).getD 0.5)

/-- `elements = list(set(elemental_assignments.values()))`: the Python set
iteration order is unspecified; the five affinity values are pairwise
distinct, and the matrix built from the list has the same contents for any
order, so first-occurrence order is used here. -/
def elements_list : List String := (elemental_assignments.map (·.2)).dedup

/-- `self.resonance_matrix` as built by `initialize_elemental_system`:
`1.0` on the diagonal, `_calculate_elemental_resonance` off it. -/
def initial_resonance_matrix : List (String × List (String × ℚ)) :=
  elements_list.map fun elem1 =>
    (elem1, elements_list.map fun elem2 =>
      (elem2, if elem1 == elem2 then (1 : ℚ) else calculate_elemental_resonance elem1 elem2))

/-- Which branch of `combine_glyphs` produced a result: the value of the
`type` field of the result dictionary. -/
inductive CombineType where
  | known_combination : CombineType
  | new_discovery : CombineType
  deriving DecidableEq

/-- The result dictionary of `combine_glyphs`.  The source builds it as a
dynamic dictionary whose fields depend on the branch taken; fields that a
branch does not set are `none` here. -/
structure CombineResult where
  rtype : CombineType
  success : Bool
  pattern_key : Option String
  input_glyphs : List String
  timestamp : String
  mastery_bonus : Option ℚ
  entropy_modifier : Option ℚ
  discovery_chance : Option ℚ
  total_resonance : Option ℚ
  result_glyph : String
  name : String
  properties : List String
  effect : Option String
  potency : ℚ
  stability : ℚ
  entropy_cost : Option ℚ
  rarity : String
  discovery : Option Bool
  deriving DecidableEq

/-- One entry of `self.combination_history` (`_record_combination`). -/
structure HistoryEntry where
  glyphs : List String
  result : CombineResult
  timestamp : String
  mastery_at_time : ℚ
  deriving DecidableEq

/-- The mutable state of `AlchemySystem` that `combine_glyphs` touches.
(`pattern_library` and the glyph manager handle are never read or written
by the combination path and are omitted.) -/
structure AlchemyState where
  known_combinations : List (String × CombRecord)
  combination_history : List HistoryEntry
  transmutation_count : ℤ
  mastery_level : ℚ
  elemental_affinities : List (String × String)
  resonance_matrix : List (String × List (String × ℚ))
  deriving DecidableEq

/-- The state of `AlchemySystem.__init__` after
`initialize_base_combinations` and `initialize_elemental_system`. -/
def initial_alchemy_state (hexdigest : String → List Char) : AlchemyState :=
  { known_combinations := initial_known_combinations hexdigest
    combination_history := []
    transmutation_count := 0
    mastery_level := 0
    elemental_affinities := elemental_assignments
    resonance_matrix := initial_resonance_matrix }

/-- The two `ValueError`s raised by `combine_glyphs` on bad arity. -/
inductive CombineError where
  /-- `ValueError("Need at least 2 glyphs for combination")` -/
  | need_at_least_two : CombineError
  /-- `ValueError("Cannot combine more than 5 glyphs at once")` -/
  | at_most_five : CombineError
  deriving DecidableEq

/-- Every random draw and timestamp consumed by one `combine_glyphs` call. -/
structure CombineOracle where
  /-- `datetime.now(timezone.utc).isoformat()` for the result and history entry. -/
  timestamp : String
  /-- the `random.random()` success roll (known branch or discovery branch). -/
  success_roll : ℚ
  /-- `base_entropy = random.uniform(0.3, 0.8)` in `_calculate_entropy_influence`. -/
  entropy_base : ℚ
  /-- the `random.uniform(0.7, 1.3)` draw of the chaotic branch. -/
  entropy_chaotic : ℚ
  /-- the `random.uniform(0.9, 1.1)` draw of the stable branch. -/
  entropy_stable : ℚ
  /-- the `random.uniform(0.8, 1.2)` draw of the balanced branch. -/
  entropy_balanced : ℚ
  /-- `random.choice(failure_types)` in `_generate_failure_result`. -/
  failure_name : String
  /-- `random.choice(failure_effects)` in `_generate_failure_result`. -/
  failure_effect : String
  /-- `random.choice(hybrid_glyphs)` in `_generate_new_combination`. -/
  new_glyph : String
  /-- the name `_generate_new_combination` assembles from two `random.choice`
  draws over pools selected through Python set iteration order. -/
  new_name : String
  /-- the property list assembled from `random.sample` draws, deduplicated
  through a Python set and truncated to 4 entries. -/
  new_properties : List String
  /-- `random.uniform(0.0, 0.2)` in the potency formula. -/
  potency_noise : ℚ

/-- All unordered index pairs `i < j` of a list, in the order the nested
loops of `_calculate_total_resonance` visit them. -/
def pairs_of {α : Type} : List α → List (α × α)
  | [] => []
  | x :: xs => (xs.map fun y => (x, y)) ++ pairs_of xs

/-- The contribution of one glyph pair inside the loop of
`_calculate_total_resonance`: `some r` when both affinity elements are
found in the resonance matrix (the pair is summed and counted), `none`
when the pair is skipped. -/
def resonance_pair_value (s : AlchemyState) (g1 g2 : String) : Option ℚ :=
  let elem1 := (assoc_find s.elemental_affinities g1).getD "unknown"
  let elem2 := (assoc_find s.elemental_affinities g2).getD "unknown"
  match assoc_find s.resonance_matrix elem1 with
  | some row => assoc_find row elem2
  | none => none

/-- `AlchemySystem._calculate_total_resonance` (src/alchemy_system.py lines
251-268): sum the matrix resonance over the pairs it covers, count them,
and divide by `max(1, pair_count)`. -/
def calculate_total_resonance (s : AlchemyState) (glyphs : List String) : ℚ :=
  if glyphs.length < 2 then 0
  else
    let acc := (pairs_of glyphs).foldl
      (fun acc p =>
        match resonance_pair_value s p.1 p.2 with
        | some r => (acc.1 + r, acc.2 + 1)
        | none => acc)
      ((0 : ℚ), (0 : ℕ))
    acc.1 / ((max 1 acc.2 : ℕ) : ℚ)

/-- `AlchemySystem._calculate_rarity`: fixed potency thresholds. -/
def calculate_rarity (potency : ℚ) : String :=
  if potency ≥ 0.9 then "legendary"
  else if potency ≥ 0.7 then "epic"
  else if potency ≥ 0.5 then "rare"
  else if potency ≥ 0.3 then "uncommon"
  else "common"

/-- `AlchemySystem._calculate_entropy_influence`: a `uniform(0.3, 0.8)`
draw picks one of three branches, each returning a further uniform draw
(`[0.7,1.3]`, `[0.9,1.1]` or `[0.8,1.2]`); all draws are oracle inputs. -/
def calculate_entropy_influence (o : CombineOracle) : ℚ :=
  if o.entropy_base > 0.7 then o.entropy_chaotic
  else if o.entropy_base < 0.3 then o.entropy_stable
  else o.entropy_balanced

/-- `AlchemySystem._generate_failure_result` merged into a result that
already carries the branch fields `rtype`, `success`, `pattern_key` and the
discovery statistics: the failure payload overwrites the outcome fields. -/
def apply_failure_result (o : CombineOracle) (r : CombineResult) : CombineResult :=
  { r with
    result_glyph := "✗"
    name := o.failure_name
    properties := ["unstable", "dangerous"]
    effect := some o.failure_effect
    potency := 0
    stability := 0
    entropy_cost := some 0.05
    rarity := "failure" }

/-- `AlchemySystem._execute_known_combination` (src/alchemy_system.py lines
172-210).  `base_result` is the record the source reads from
`self.known_combinations[pattern_key]`; the caller passes the entry it just
found there. -/
def execute_known_combination (s : AlchemyState) (base_result : CombRecord)
    (pattern_key : String) (glyphs : List String) (o : CombineOracle) : CombineResult :=
  let mastery_bonus := s.mastery_level * 0.1
  let potency := min 1 (base_result.potency + mastery_bonus)
  let entropy_modifier := calculate_entropy_influence o
  let stability := base_result.stability * entropy_modifier
  let success_chance := stability * (0.5 + mastery_bonus)
  let success : Bool := decide (o.success_roll < success_chance)
  let result : CombineResult :=
    { rtype := .known_combination
      success := success
      pattern_key := some pattern_key
      input_glyphs := glyphs
      timestamp := o.timestamp
      mastery_bonus := some mastery_bonus
      entropy_modifier := some entropy_modifier
      discovery_chance := none
      total_resonance := none
      result_glyph := ""
      name := ""
      properties := []
      effect := none
      potency := 0
      stability := 0
      entropy_cost := none
      rarity := ""
      discovery := none }
  if success then
    { result with
      result_glyph := base_result.result_glyph
      name := base_result.name
      properties := base_result.properties
      potency := potency
      stability := stability
      rarity := calculate_rarity potency }
  else
    apply_failure_result o result

/-- `AlchemySystem._generate_new_combination` (src/alchemy_system.py lines
270-333): glyph, name and property draws are oracle inputs; the numeric
stats are computed from the resonance and the input-count complexity.  The
returned rarity uses the unrounded potency. -/
def generate_new_combination (glyphs : List String) (resonance : ℚ)
    (o : CombineOracle) : CombRecord × String :=
  let complexity_factor : ℚ := (glyphs.length : ℚ) / 5
  let potency := min 1 (resonance * 0.8 + complexity_factor * 0.3 + o.potency_noise)
  let stability := max 0.1 (min 0.9 (resonance * 0.9 - complexity_factor * 0.2))
  let entropy_cost := complexity_factor * 0.2 + (1 - resonance) * 0.1
  ({ result_glyph := o.new_glyph
     name := o.new_name
     properties := o.new_properties
     potency := py_round 2 potency
     stability := py_round 2 stability
     entropy_cost := py_round 2 entropy_cost },
   calculate_rarity potency)

/-- `AlchemySystem._discover_new_combination` (src/alchemy_system.py lines
212-249).  On a successful roll the synthesized record is stored in the
registry — the only mutation path of `known_combinations` — and returned;
on a failed roll the failure payload is returned and the registry is left
untouched. -/
def discover_new_combination (hexdigest : String → List Char) (s : AlchemyState)
    (glyphs : List String) (o : CombineOracle) : CombineResult × AlchemyState :=
  let total_resonance := calculate_total_resonance s glyphs
  let discovery_chance := min 0.8 (total_resonance * 0.3 + s.mastery_level * 0.1)
  let success : Bool := decide (o.success_roll < discovery_chance)
  let result : CombineResult :=
    { rtype := .new_discovery
      success := success
      pattern_key := none
      input_glyphs := glyphs
      timestamp := o.timestamp
      mastery_bonus := none
      entropy_modifier := none
      discovery_chance := some discovery_chance
      total_resonance := some total_resonance
      result_glyph := ""
      name := ""
      properties := []
      effect := none
      potency := 0
      stability := 0
      entropy_cost := none
      rarity := ""
      discovery := none }
  if success then
    let nc := generate_new_combination glyphs total_resonance o
    let pattern_key := generate_pattern_key hexdigest glyphs
    ({ result with
       result_glyph := nc.1.result_glyph
       name := nc.1.name
       properties := nc.1.properties
       potency := nc.1.potency
       stability := nc.1.stability
       entropy_cost := some nc.1.entropy_cost
       rarity := nc.2
       pattern_key := some pattern_key
       discovery := some true },
     { s with known_combinations := dict_insert s.known_combinations pattern_key nc.1 })
  else
    (apply_failure_result o result, s)

/-- `AlchemySystem._record_combination` (src/alchemy_system.py lines
391-404): append the history entry, bump the transmutation count, and
truncate the history to its last 500 entries when it exceeds 1000. -/
def record_combination (s : AlchemyState) (glyphs : List String)
    (result : CombineResult) (ts : String) : AlchemyState :=
  let history := s.combination_history ++
    [{ glyphs := glyphs, result := result, timestamp := ts, mastery_at_time := s.mastery_level }]
  let history := if history.length > 1000 then history.drop (history.length - 500) else history
  { s with combination_history := history, transmutation_count := s.transmutation_count + 1 }

/-- `AlchemySystem._update_mastery` (src/alchemy_system.py lines 406-415):
gain `0.01` mastery, doubled when the last history entry was a discovery,
capped at `10.0`. -/
def update_mastery (s : AlchemyState) : AlchemyState :=
  let mastery_gain : ℚ := 0.01
  let last_discovery :=
    match s.combination_history.getLast? with
    | some entry => entry.result.discovery.getD false
    | none => false
  let mastery_gain := if last_discovery then mastery_gain * 2 else mastery_gain
  { s with mastery_level := min 10 (s.mastery_level + mastery_gain) }

/-- `AlchemySystem.combine_glyphs` (src/alchemy_system.py lines 136-159):
arity checks first (each `raise` happens before any key computation,
lookup or mutation), then the known-combination or discovery branch, then
the history record and the mastery update. -/
def combine_glyphs (hexdigest : String → List Char) (s : AlchemyState)
    (glyphs : List String) (o : CombineOracle) :
    Except CombineError (CombineResult × AlchemyState) :=
  if glyphs.length < 2 then .error .need_at_least_two
  else if glyphs.length > 5 then .error .at_most_five
  else
    let pattern_key := generate_pattern_key hexdigest glyphs
    let step :=
      match assoc_find s.known_combinations pattern_key with
      | some base_result => (execute_known_combination s base_result pattern_key glyphs o, s)
      | none => discover_new_combination hexdigest s glyphs o
    let s2 := record_combination step.2 glyphs step.1 o.timestamp
    .ok (step.1, update_mastery s2)

/-- One `combine_glyphs` call as a state transition: a `ValueError`
propagates to the caller and, since both raises precede every mutation,
leaves the system state exactly as it was. -/
def combine_step (hexdigest : String → List Char) (s : AlchemyState)
    (inp : List String × CombineOracle) : AlchemyState :=
  match combine_glyphs hexdigest s inp.1 inp.2 with
  | .ok rs => rs.2
  | .error _ => s

/-! ### The drift engine (src/drift_engine.py) -/

/-- The entropy field dictionary of `DriftEngine.initialize_entropy_field`:
`global_flux`, per-enclave resonance, per-glyph harmonics,
`temporal_distortion` and `market_volatility`. -/
structure EntropyField where
  global_flux : ℚ
  enclave_resonance : List (String × ℚ)
  glyph_harmonics : List (String × ℚ)
  temporal_distortion : ℚ
  market_volatility : ℚ
  deriving DecidableEq

/-- The `DriftEngine` state that the node-lifecycle operations read and
write.  Subsystem managers that the modelled operations only consult
through oracle draws (chrono, oracle, market, …) are not part of it;
`active_enclave` is the name of the active enclave object, if any. -/
structure EngineState where
  node_id : String
  entropy_level : ℚ
  time_salt : ℤ
  identity_fragments : ℤ
  fork_log : List Record
  anomaly_echoes : List Record
  sentient_logs : List Record
  active_enclave : Option String
  current_drift_map : Option (List (List String))
  entropy_field : EntropyField

/-- The random draws of one `update_entropy_field` call: one uniform delta
per scalar, keyed by enclave or glyph for the two maps. -/
structure TickOracle where
  /-- `random.uniform(-0.05, 0.05)` for `global_flux`. -/
  flux_change : ℚ
  /-- `random.uniform(-0.02, 0.02)` per enclave. -/
  resonance_change : String → ℚ
  /-- `random.uniform(-0.03, 0.03)` per glyph. -/
  harmonic_change : String → ℚ
  /-- `random.uniform(-0.01, 0.01)` for `temporal_distortion`. -/
  temporal_change : ℚ
  /-- `random.uniform(-0.1, 0.1)` for `market_volatility`. -/
  volatility_change : ℚ

/-- `DriftEngine.update_entropy_field` (src/drift_engine.py lines 91-121):
every scalar receives its perturbation and is clamped back to its range
(`max(0.0, min(1.0, ·))`, and `max(-1.0, min(1.0, ·))` for the temporal
distortion). -/
def update_entropy_field (s : EngineState) (o : TickOracle) : EngineState :=
  let ef := s.entropy_field
  { s with entropy_field :=
    { global_flux := max 0 (min 1 (ef.global_flux + o.flux_change))
      enclave_resonance :=
        ef.enclave_resonance.map fun kv => (kv.1, max 0 (min 1 (kv.2 + o.resonance_change kv.1)))
      glyph_harmonics :=
        ef.glyph_harmonics.map fun kv => (kv.1, max 0 (min 1 (kv.2 + o.harmonic_change kv.1)))
      temporal_distortion := max (-1) (min 1 (ef.temporal_distortion + o.temporal_change))
      market_volatility := max 0 (min 1 (ef.market_volatility + o.volatility_change)) } }

/-- The random draws and timestamps of one `create_sentient_log` call. -/
structure SentientOracle where
  creation_timestamp : String
  sentience_level : ℚ
  autonomy_level : ℚ
  /-- `random.choice(["observer", "manipulator", "chronicler", "prophet"])`. -/
  behavior : String
  activity_timestamp : String
  influence_radius : ℚ

/-- `DriftEngine.create_sentient_log` (src/drift_engine.py lines 271-287):
the sentient-log record that gets appended to `self.sentient_logs`. -/
def create_sentient_log_record (log_id content : String) (o : SentientOracle) : Record :=
  [("log_id", .VStr log_id.data),
   ("creation_timestamp", .VStr o.creation_timestamp.data),
   ("content", .VStr content.data),
   ("sentience_level", .VFloat o.sentience_level),
   ("autonomy_level", .VFloat o.autonomy_level),
   ("behavior_pattern", .VStr o.behavior.data),
   ("interaction_count", .VInt 0),
   ("last_activity", .VStr o.activity_timestamp.data),
   ("influence_radius", .VFloat o.influence_radius),
   ("memory_fragments", .VList [])]

/-- The random draws, timestamps and subsystem outputs consumed by one
`fork_node` call. -/
structure ForkOracle where
  /-- `random.randint(1000, 9999)`. -/
  suffix : ℤ
  timestamp : String
  /-- `random.sample(self.glyph_manager.get_all_glyphs(), k=3)`. -/
  glyph_state : List String
  /-- `random.uniform(0.0, 0.3)`. -/
  sentience_probability : ℚ
  /-- `self.chrono_system.get_current_signature()`: an external subsystem value. -/
  temporal_signature : String
  /-- `random.uniform(0.1, 0.9)` inside `calculate_fork_potential`. -/
  resonance_potential : ℚ
  /-- `random.uniform(-0.2, 0.2)` inside `calculate_fork_potential`. -/
  stability_bias : ℚ
  /-- `random.choice(list(self.elemental_affinities.values()))`. -/
  elemental_inclination : String
  /-- draws of the `create_sentient_log` call a high sentience roll triggers. -/
  sentient : SentientOracle

/-- `AlchemySystem.calculate_fork_potential` (src/alchemy_system.py lines
417-428): the pattern strength is the distinct-character ratio of the fork
id; the other three fields are random draws. -/
def calculate_fork_potential (fork_id : String) (o : ForkOracle) : Record :=
  let id_chars := fork_id.data
  let pattern_strength : ℚ := (id_chars.dedup.length : ℚ) / (id_chars.length : ℚ)
  [("pattern_strength", .VFloat (py_round 2 pattern_strength)),
   ("resonance_potential", .VFloat (py_round 2 o.resonance_potential)),
   ("stability_bias", .VFloat (py_round 2 o.stability_bias)),
   ("elemental_inclination", .VStr o.elemental_inclination.data)]

/-- `DriftEngine.fork_node` (src/drift_engine.py lines 143-173): build the
fork record, append it to `fork_log`, possibly spawn a sentient log, and
multiply `global_flux` by `1.05` — the source applies no clamp here. -/
def fork_node (s : EngineState) (node_id_arg : Option String) (o : ForkOracle) :
    Record × EngineState :=
  let node_id := node_id_arg.getD s.node_id
  let fork_id := node_id ++ "-" ++ toString o.suffix
  let fork_state : Record :=
    [("node_id", .VStr fork_id.data),
     ("timestamp", .VStr o.timestamp.data),
     ("parent_node", .VStr node_id.data),
     ("glyph_state", .VList (o.glyph_state.map fun g => .VStr g.data)),
     ("entropy_level", .VFloat (py_round 3 s.entropy_field.global_flux)),
     ("enclave_origin", .VStr ((s.active_enclave.getD "Unknown").data)),
     ("temporal_signature", .VStr o.temporal_signature.data),
     ("alchemy_potential", .VDict (calculate_fork_potential fork_id o)),
     ("sentience_probability", .VFloat o.sentience_probability)]
  let s1 := { s with fork_log := s.fork_log ++ [fork_state] }
  -- (The Python f-string renders the glyph-state list with `repr`; the exact
  -- rendering of that log text is abbreviated with `toString` here.)
  let s2 :=
    if o.sentience_probability > 0.2 then
      { s1 with sentient_logs := s1.sentient_logs ++
          [create_sentient_log_record fork_id
            ("Emerged from fork operation: " ++ toString o.glyph_state) o.sentient] }
    else s1
  let s3 := { s2 with entropy_field :=
    { s2.entropy_field with global_flux := s2.entropy_field.global_flux * 1.05 } }
  (fork_state, s3)

/-- The random draws and timestamps of one `create_anomaly_echo` call,
including the per-field corruption draws of `_fracture_data`. -/
structure EchoOracle where
  /-- `random.randint(10000, 99999)`. -/
  echo_id_num : ℤ
  timestamp : String
  /-- `round(random.uniform(0.0, 1.0), 3)`. -/
  entropy_signature : ℚ
  /-- `random.uniform(-0.5, 0.5)`. -/
  temporal_drift : ℚ
  /-- `random.uniform(0.1, 0.9)`. -/
  echo_strength : ℚ
  /-- per-field outcome of `random.random() < 0.3` in `_fracture_data`. -/
  fracture_sel : String → Bool

/-- `DriftEngine.create_anomaly_echo` (src/drift_engine.py lines 227-245):
the echo carries either a verbatim `source_data` copy or, when fractured,
the `corrupted_data` produced by `_fracture_data`. -/
def create_anomaly_echo (o : EchoOracle) (source_data : Record) (fractured : Bool) : Record :=
  let echo : Record :=
    [("echo_id", .VStr ("echo-" ++ toString o.echo_id_num).data),
     ("timestamp", .VStr o.timestamp.data),
     ("source_type", (assoc_find source_data "action").getD (.VStr "fork".data)),
     ("fractured", .VBool fractured),
     ("entropy_signature", .VFloat (py_round 3 o.entropy_signature)),
     ("temporal_drift", .VFloat o.temporal_drift),
     ("echo_strength", .VFloat o.echo_strength)]
  if fractured then echo ++ [("corrupted_data", .VDict (fracture_data o.fracture_sel source_data))]
  else echo ++ [("source_data", .VDict source_data)]

/-- The random draws and timestamps of one `collapse_node` call. -/
structure CollapseOracle where
  /-- `random.choice(self.glyph_manager.get_all_glyphs())`. -/
  sigil : String
  timestamp : String
  /-- `random.randint(1, 5)`. -/
  time_salt_generated : ℤ
  /-- `random.randint(0, 3)`. -/
  fragments_released : ℤ
  echo : EchoOracle

/-- `DriftEngine.collapse_node` (src/drift_engine.py lines 175-203): build
the collapse record, credit the ledger, multiply `global_flux` by `0.95`,
and append an unfractured anomaly echo. -/
def collapse_node (s : EngineState) (node_id_arg : Option String) (o : CollapseOracle) :
    Record × EngineState :=
  let node_id := node_id_arg.getD s.node_id
  let collapse_result : Record :=
    [("node_id", .VStr node_id.data),
     ("action", .VStr "collapse".data),
     ("status", .VStr "erased".data),
     ("sigil", .VStr o.sigil.data),
     ("timestamp", .VStr o.timestamp.data),
     ("entropy_release", .VFloat (py_round 3 (s.entropy_field.global_flux * 0.1))),
     ("time_salt_generated", .VInt o.time_salt_generated),
     ("fragments_released", .VInt o.fragments_released)]
  let s1 := { s with
    time_salt := s.time_salt + o.time_salt_generated
    identity_fragments := s.identity_fragments + o.fragments_released }
  let s2 := { s1 with entropy_field :=
    { s1.entropy_field with global_flux := s1.entropy_field.global_flux * 0.95 } }
  let s3 := { s2 with anomaly_echoes :=
    s2.anomaly_echoes ++ [create_anomaly_echo o.echo collapse_result false] }
  (collapse_result, s3)

/-- The random draws of one `memory_wipe` call: which fork-log entries the
`random.sample(self.fork_log, min(3, len(self.fork_log)))` draw picks
(as indices into the log), and the echo draws for each of them. -/
structure WipeOracle where
  sample_indices : List ℕ
  echo : ℕ → EchoOracle

/-- `DriftEngine.memory_wipe` (src/drift_engine.py lines 205-225): turn up
to three sampled fork records into fractured anomaly echoes, clear the fork
log, credit `wiped_count * 2` time salt, and reset `global_flux` to `0.5`.
Returns the new state and the report string. -/
def memory_wipe (s : EngineState) (o : WipeOracle) : EngineState × String :=
  let sampled := (o.sample_indices.take (min 3 s.fork_log.length)).filterMap
    fun i => s.fork_log.get? i
  let s1 :=
    if s.fork_log.isEmpty then s
    else { s with anomaly_echoes := s.anomaly_echoes ++
      (sampled.enum.map fun p => create_anomaly_echo (o.echo p.1) p.2 true) }
  let wiped_count := s.fork_log.length
  let s2 := { s1 with fork_log := [] }
  let salt_generated : ℤ := (wiped_count : ℤ) * 2
  let s3 := { s2 with time_salt := s2.time_salt + salt_generated }
  let s4 := { s3 with entropy_field := { s3.entropy_field with global_flux := 0.5 } }
  (s4, "Memory void complete. " ++ toString wiped_count ++
    " fork histories erased. Generated " ++ toString salt_generated ++ " Time Salt.")

/-- The weighted sampling pool built per cell by `generate_drift_map`
(src/drift_engine.py lines 131-134): each glyph appears
`max(1, int(weight * 10))` times, the weight defaulting to `0.5` for a
glyph without a harmonic entry.  Python `int()` truncates toward zero;
composed with `max(1, ·)` that agrees with `⌊·⌋.toNat` for every weight. -/
def weighted_glyph_pool (ef : EntropyField) : List String :=
  base_glyphs.flatMap fun glyph =>
    let weight := (assoc_find ef.glyph_harmonics glyph).getD 0.5
    List.replicate (max 1 (⌊weight * 10⌋.toNat)) glyph

/-- The row the inner loop of `generate_drift_map` builds before the buggy
`row.append(row)` discards it: one `random.choice(weighted_glyphs)` per
cell, the choice draw modelled as an oracle index into the pool. -/
def drift_map_row (ef : EntropyField) (cell : ℕ → ℕ) (width : ℕ) : List String :=
  (List.range width).map fun x =>
    let weighted_glyphs := weighted_glyph_pool ef
    weighted_glyphs.getD (cell x % weighted_glyphs.length) ""

/-- `DriftEngine.generate_drift_map` (src/drift_engine.py lines 123-141).
Each outer-loop iteration builds `row` cell by cell and then executes
`row.append(row)` — appending the row to itself instead of
`drift_map.append(row)` — so no row ever reaches `drift_map`, which is
still the empty list when it is stored in `current_drift_map` and
returned. -/
def generate_drift_map (s : EngineState) (cell : ℕ → ℕ → ℕ) (width height : ℕ) :
    List (List String) × EngineState :=
  let _rows := (List.range height).map fun y => drift_map_row s.entropy_field (cell y) width
  ([], { s with current_drift_map := some [] })

/-- One call in a sequence of entropy-field ticks and lifecycle
operations, together with all its random draws. -/
inductive EngineOp where
  | tick : TickOracle → EngineOp
  | fork : Option String → ForkOracle → EngineOp
  | collapse : Option String → CollapseOracle → EngineOp
  | wipe : WipeOracle → EngineOp

/-- The state transition of one engine call. -/
def engine_step (s : EngineState) : EngineOp → EngineState
  | .tick o => update_entropy_field s o
  | .fork n o => (fork_node s n o).2
  | .collapse n o => (collapse_node s n o).2
  | .wipe o => (memory_wipe s o).1

/-- Whether an operation is a `fork_node` call. -/
def EngineOp.is_fork : EngineOp → Bool
  | .fork _ _ => true
  | _ => false

/-- The declared ranges of every entropy-field scalar except
`global_flux`: resonances, harmonics and volatility in `[0, 1]`, temporal
distortion in `[-1, 1]`. -/
def non_flux_in_range (ef : EntropyField) : Prop :=
  (∀ kv ∈ ef.enclave_resonance, 0 ≤ kv.2 ∧ kv.2 ≤ 1) ∧
  (∀ kv ∈ ef.glyph_harmonics, 0 ≤ kv.2 ∧ kv.2 ≤ 1) ∧
  (-1 ≤ ef.temporal_distortion ∧ ef.temporal_distortion ≤ 1) ∧
  (0 ≤ ef.market_volatility ∧ ef.market_volatility ≤ 1)

instance (ef : EntropyField) : Decidable (non_flux_in_range ef) := by
  unfold non_flux_in_range; infer_instance

/-- The declared ranges of all entropy-field scalars. -/
def field_in_range (ef : EntropyField) : Prop :=
  (0 ≤ ef.global_flux ∧ ef.global_flux ≤ 1) ∧ non_flux_in_range ef

instance (ef : EntropyField) : Decidable (field_in_range ef) := by
  unfold field_in_range; infer_instance

/-! ### Order properties of the Python string comparison -/

lemma chars_le_total : ∀ a b : List Char, chars_le a b = true ∨ chars_le b a = true
  | [], _ => Or.inl rfl
  | _ :: _, [] => Or.inr rfl
  | x :: xs, y :: ys => by
      rcases lt_trichotomy x y with h | h | h
      · left; simp [chars_le, h]
      · subst h
        rcases chars_le_total xs ys with ih | ih
        · left; simp [chars_le, lt_irrefl, ih]
        · right; simp [chars_le, lt_irrefl, ih]
      · right; simp [chars_le, h]

lemma chars_le_trans : ∀ a b c : List Char,
    chars_le a b = true → chars_le b c = true → chars_le a c = true
  | [], _, _, _, _ => rfl
  | _ :: _, [], _, hab, _ => by simp [chars_le] at hab
  | _ :: _, _ :: _, [], _, hbc => by simp [chars_le] at hbc
  | x :: xs, y :: ys, z :: zs, hab, hbc => by
      simp only [chars_le] at hab hbc ⊢
      by_cases h1 : x < y
      · by_cases h2 : y < z
        · simp [lt_trans h1 h2]
        · by_cases h3 : z < y
          · simp [h2, h3] at hbc
          · have hyz : y = z := le_antisymm (not_lt.mp h3) (not_lt.mp h2)
            subst hyz; simp [h1]
      · by_cases h4 : y < x
        · simp [h1, h4] at hab
        · have hxy : x = y := le_antisymm (not_lt.mp h4) (not_lt.mp h1)
          subst hxy
          simp only [lt_irrefl, if_false] at hab
          by_cases h2 : x < z
          · simp [h2]
          · by_cases h3 : z < x
            · simp [h2, h3] at hbc
            · have hxz : x = z := le_antisymm (not_lt.mp h3) (not_lt.mp h2)
              subst hxz
              simp only [lt_irrefl, if_false] at hbc ⊢
              exact chars_le_trans xs ys zs hab hbc

lemma chars_le_antisymm : ∀ a b : List Char,
    chars_le a b = true → chars_le b a = true → a = b
  | [], [], _, _ => rfl
  | [], _ :: _, _, hba => by simp [chars_le] at hba
  | _ :: _, [], hab, _ => by simp [chars_le] at hab
  | x :: xs, y :: ys, hab, hba => by
      simp only [chars_le] at hab hba
      by_cases h1 : x < y
      · simp [lt_asymm h1, h1] at hba
      · by_cases h2 : y < x
        · simp [h1, h2] at hab
        · have hxy : x = y := le_antisymm (not_lt.mp h2) (not_lt.mp h1)
          subst hxy
          simp only [lt_irrefl, if_false] at hab hba
          rw [chars_le_antisymm xs ys hab hba]

instance : IsTotal String py_str_le :=
  ⟨fun a b => chars_le_total a.data b.data⟩

instance : IsTrans String py_str_le :=
  ⟨fun a b c => chars_le_trans a.data b.data c.data⟩

instance : IsAntisymm String py_str_le :=
  ⟨fun a b hab hba => by
    cases a with
    | mk d1 =>
      cases b with
      | mk d2 => exact congrArg String.mk (chars_le_antisymm d1 d2 hab hba)⟩

lemma insertionSort_perm_eq {g1 g2 : List String} (h : g1.Perm g2) :
    List.insertionSort py_str_le g1 = List.insertionSort py_str_le g2 :=
  List.eq_of_perm_of_sorted
    ((List.perm_insertionSort py_str_le g1).trans (h.trans (List.perm_insertionSort py_str_le g2).symm))
    (List.sorted_insertionSort py_str_le g1)
    (List.sorted_insertionSort py_str_le g2)

lemma generate_pattern_key_perm (hexdigest : String → List Char) {g1 g2 : List String}
    (h : g1.Perm g2) :
    generate_pattern_key hexdigest g1 = generate_pattern_key hexdigest g2 := by
  unfold generate_pattern_key
  rw [insertionSort_perm_eq h, h.length_eq]

lemma toDigits_single (n : ℕ) (h : n < 10) : Nat.toDigits 10 n = [Nat.digitChar n] := by
  interval_cases n <;> rfl

lemma pattern_key_digit (hexdigest : String → List Char) (glyphs : List String)
    (h : glyphs.length < 10) :
    (generate_pattern_key hexdigest glyphs).data.get? 8 = some (Nat.digitChar glyphs.length) := by
  unfold generate_pattern_key
  rw [toDigits_single glyphs.length h]
  rfl

lemma pattern_key_ne (hexdigest : String → List Char) {g1 g2 : List String}
    (h1 : g1.length < 10) (h2 : g2.length < 10)
    (hne : Nat.digitChar g1.length ≠ Nat.digitChar g2.length) :
    generate_pattern_key hexdigest g1 ≠ generate_pattern_key hexdigest g2 := by
  intro he
  have e1 := pattern_key_digit hexdigest g1 h1
  have e2 := pattern_key_digit hexdigest g2 h2
  rw [he, e2] at e1
  exact hne (Option.some.inj e1).symm

/-- C2: for every list of 2 to 5 tokens and every permutation of that
list, `_generate_pattern_key` returns an identical key, and the key embeds
the token count so that keys for inputs of different arity can never
coincide — whatever digest function stands in for the md5 hexdigest. -/
theorem c2_pattern_key_canonical (hexdigest : String → List Char) (g1 g2 : List String) :
    (2 ≤ g1.length → g1.length ≤ 5 → g1.Perm g2 →
      generate_pattern_key hexdigest g1 = generate_pattern_key hexdigest g2) ∧
    (2 ≤ g1.length → g1.length ≤ 5 → 2 ≤ g2.length → g2.length ≤ 5 → g1.length ≠ g2.length →
      generate_pattern_key hexdigest g1 ≠ generate_pattern_key hexdigest g2) := by
  refine ⟨fun _ _ h => generate_pattern_key_perm hexdigest h, fun ha hb hc hd hne => ?_⟩
  refine pattern_key_ne hexdigest (by omega) (by omega) ?_
  have d1 : g1.length = 2 ∨ g1.length = 3 ∨ g1.length = 4 ∨ g1.length = 5 := by omega
  have d2 : g2.length = 2 ∨ g2.length = 3 ∨ g2.length = 4 ∨ g2.length = 5 := by omega
  rcases d1 with h | h | h | h <;> rcases d2 with h' | h' | h' | h' <;>
    first
      | exact absurd (h.trans h'.symm) hne
      | (rw [h, h']; decide)

/-- The stand-in digest used to instantiate witnesses: the characters of
the input string itself. -/
def sample_hexdigest : String → List Char := fun s => s.data

/-- Witness for C2: the key of `["⊗", "▲"]` equals the key of the permuted
`["▲", "⊗"]`, and a 2-token key differs from a 3-token key. -/
theorem c2_witness :
    generate_pattern_key sample_hexdigest ["⊗", "▲"] =
      generate_pattern_key sample_hexdigest ["▲", "⊗"] ∧
    generate_pattern_key sample_hexdigest ["▲", "⊗"] ≠
      generate_pattern_key sample_hexdigest ["▲", "⊗", "≈"] :=
  ⟨(c2_pattern_key_canonical sample_hexdigest ["⊗", "▲"] ["▲", "⊗"]).1 (by decide) (by decide)
      (List.Perm.swap "▲" "⊗" []),
   (c2_pattern_key_canonical sample_hexdigest ["▲", "⊗"] ["▲", "⊗", "≈"]).2 (by decide) (by decide)
      (by decide) (by decide) (by decide)⟩

/-- C3: `memory_wipe` always empties the fork log, credits exactly twice
the pre-wipe log length in time salt, and resets `global_flux` to `0.5`
regardless of its previous value — for every starting state and every
random draw. -/
theorem c3_memory_wipe (s : EngineState) (o : WipeOracle) :
    (memory_wipe s o).1.fork_log = [] ∧
    (memory_wipe s o).1.time_salt = s.time_salt + 2 * (s.fork_log.length : ℤ) ∧
    (memory_wipe s o).1.entropy_field.global_flux = 0.5 := by
  unfold memory_wipe
  by_cases h : s.fork_log.isEmpty <;> simp [h] <;> ring

/-- C9: the fractured copy has exactly the field names of the input record,
in the same order.  (`_fracture_data` only reads `data`, so the input
record itself is unchanged by the call — in this embedding it is a pure
function of the input.) -/
theorem c9_fracture_field_names (sel : String → Bool) (data : Record) :
    (fracture_data sel data).map Prod.fst = data.map Prod.fst := by
  rw [fracture_data, List.map_map]
  apply List.map_congr_left
  intro kv _
  by_cases h : sel kv.1 <;> simp [h]

/-! ### Registry and history lemmas -/

lemma record_combination_known (s : AlchemyState) (g : List String) (r : CombineResult)
    (ts : String) : (record_combination s g r ts).known_combinations = s.known_combinations := rfl

lemma update_mastery_known (s : AlchemyState) :
    (update_mastery s).known_combinations = s.known_combinations := rfl

lemma update_mastery_history (s : AlchemyState) :
    (update_mastery s).combination_history = s.combination_history := rfl

lemma discover_state_history (hexdigest : String → List Char) (s : AlchemyState)
    (g : List String) (o : CombineOracle) :
    (discover_new_combination hexdigest s g o).2.combination_history = s.combination_history := by
  unfold discover_new_combination
  dsimp only
  split <;> rfl

lemma record_combination_history_length (s : AlchemyState) (g : List String) (r : CombineResult)
    (ts : String) :
    (record_combination s g r ts).combination_history.length =
      if s.combination_history.length + 1 > 1000 then 500
      else s.combination_history.length + 1 := by
  unfold record_combination
  dsimp only
  by_cases hgt : s.combination_history.length + 1 > 1000 <;>
    (simp [List.length_append, hgt]; try omega)

lemma record_combination_suffix (s : AlchemyState) (g : List String) (r : CombineResult)
    (ts : String) :
    (record_combination s g r ts).combination_history <:+
      s.combination_history ++
        [{ glyphs := g, result := r, timestamp := ts, mastery_at_time := s.mastery_level }] := by
  show (if _ > 1000 then _ else _) <:+ _
  split
  · exact List.drop_suffix _ _
  · exact List.suffix_refl _

lemma record_then_mastery_le (s : AlchemyState) (g : List String) (r : CombineResult)
    (ts : String) (h : s.combination_history.length ≤ 1000) :
    (update_mastery (record_combination s g r ts)).combination_history.length ≤ 1000 := by
  rw [update_mastery_history, record_combination_history_length]
  split <;> omega

lemma combine_step_history_le (hexdigest : String → List Char) (s : AlchemyState)
    (inp : List String × CombineOracle) (h : s.combination_history.length ≤ 1000) :
    (combine_step hexdigest s inp).combination_history.length ≤ 1000 := by
  unfold combine_step combine_glyphs
  by_cases h2 : inp.1.length < 2
  · simp [h2, h]
  · by_cases h5 : inp.1.length > 5
    · simp [h2, h5, h]
    · simp only [h2, h5, if_false]
      cases hk : assoc_find s.known_combinations (generate_pattern_key hexdigest inp.1) with
      | some base => simp only [hk]; exact record_then_mastery_le _ _ _ _ h
      | none =>
          simp only [hk]
          refine record_then_mastery_le _ _ _ _ ?_
          rw [discover_state_history]
          exact h

/-- C10: starting from the freshly initialized system, no sequence of
`combine_glyphs` calls ever leaves more than 1000 history entries; one
`_record_combination` call grows the history by one entry until an append
would exceed 1000, at which point the history is cut to 500 entries that
form a suffix of (i.e. are the most recent entries of) the appended
history. -/
theorem c10_history_bound (hexdigest : String → List Char)
    (inputs : List (List String × CombineOracle)) :
    (inputs.foldl (combine_step hexdigest)
        (initial_alchemy_state hexdigest)).combination_history.length ≤ 1000 ∧
    (∀ (s : AlchemyState) (g : List String) (r : CombineResult) (ts : String),
      (record_combination s g r ts).combination_history.length =
        (if s.combination_history.length + 1 > 1000 then 500
         else s.combination_history.length + 1) ∧
      (record_combination s g r ts).combination_history <:+
        s.combination_history ++
          [{ glyphs := g, result := r, timestamp := ts, mastery_at_time := s.mastery_level }]) := by
  constructor
  · have main : ∀ (l : List (List String × CombineOracle)) (s : AlchemyState),
        s.combination_history.length ≤ 1000 →
        (l.foldl (combine_step hexdigest) s).combination_history.length ≤ 1000 := by
      intro l
      induction l with
      | nil => intro s hs; simpa using hs
      | cons i rest ih => intro s hs; exact ih _ (combine_step_history_le hexdigest s i hs)
    exact main inputs _ (by simp [initial_alchemy_state])
  · exact fun s g r ts =>
      ⟨record_combination_history_length s g r ts, record_combination_suffix s g r ts⟩

/-- C8: a call with fewer than 2 or more than 5 tokens raises the arity
`ValueError` — the check precedes every key computation, lookup and
mutation, so the registry, the history and the mastery level are exactly
as before the call. -/
theorem c8_arity_check (hexdigest : String → List Char) (s : AlchemyState)
    (glyphs : List String) (o : CombineOracle)
    (h : glyphs.length < 2 ∨ glyphs.length > 5) :
    combine_glyphs hexdigest s glyphs o =
      .error (if glyphs.length < 2 then .need_at_least_two else .at_most_five) ∧
    combine_step hexdigest s (glyphs, o) = s := by
  rcases h with h | h
  · simp [combine_glyphs, combine_step, h]
  · have h2 : ¬ glyphs.length < 2 := by omega
    simp [combine_glyphs, combine_step, h, h2]

/-- A concrete oracle instance used by witnesses. -/
def sample_oracle : CombineOracle :=
  { timestamp := "2024-01-01T00:00:00+00:00", success_roll := 1/2, entropy_base := 1/2,
    entropy_chaotic := 1, entropy_stable := 1, entropy_balanced := 1,
    failure_name := "Resonance Collapse", failure_effect := "glyph_scatter",
    new_glyph := "⟡", new_name := "Void Synthesis", new_properties := ["nullification"],
    potency_noise := 0 }

/-- Witness for C8: a single-glyph call fails with the arity error and
leaves the initial state untouched. -/
theorem c8_witness :
    combine_glyphs sample_hexdigest (initial_alchemy_state sample_hexdigest) ["▲"] sample_oracle =
      .error (if (["▲"] : List String).length < 2 then .need_at_least_two else .at_most_five) ∧
    combine_step sample_hexdigest (initial_alchemy_state sample_hexdigest) (["▲"], sample_oracle) =
      initial_alchemy_state sample_hexdigest :=
  c8_arity_check sample_hexdigest _ _ sample_oracle (Or.inl (by decide))

/-! ### Entropy-field range lemmas (C1) -/

lemma clamp01_nonneg (x : ℚ) : 0 ≤ max 0 (min 1 x) := le_max_left 0 _

lemma clamp01_le_one (x : ℚ) : max 0 (min 1 x) ≤ 1 := max_le zero_le_one (min_le_left 1 x)

lemma clamp11_lower (x : ℚ) : -1 ≤ max (-1) (min 1 x) := le_max_left _ _

lemma clamp11_upper (x : ℚ) : max (-1) (min 1 x) ≤ 1 := max_le (by norm_num) (min_le_left 1 x)

lemma tick_in_range (s : EngineState) (o : TickOracle) :
    field_in_range (update_entropy_field s o).entropy_field := by
  unfold update_entropy_field field_in_range non_flux_in_range
  refine ⟨⟨clamp01_nonneg _, clamp01_le_one _⟩, ?_, ?_,
    ⟨clamp11_lower _, clamp11_upper _⟩, ⟨clamp01_nonneg _, clamp01_le_one _⟩⟩
  · intro kv hkv
    obtain ⟨kv', hmem, rfl⟩ := List.mem_map.mp hkv
    exact ⟨clamp01_nonneg _, clamp01_le_one _⟩
  · intro kv hkv
    obtain ⟨kv', hmem, rfl⟩ := List.mem_map.mp hkv
    exact ⟨clamp01_nonneg _, clamp01_le_one _⟩

lemma fork_entropy_field (s : EngineState) (narg : Option String) (o : ForkOracle) :
    (fork_node s narg o).2.entropy_field =
      { s.entropy_field with global_flux := s.entropy_field.global_flux * 1.05 } := by
  by_cases h : o.sentience_probability > 0.2 <;> simp [fork_node, h]

lemma collapse_entropy_field (s : EngineState) (narg : Option String) (o : CollapseOracle) :
    (collapse_node s narg o).2.entropy_field =
      { s.entropy_field with global_flux := s.entropy_field.global_flux * 0.95 } := rfl

lemma wipe_entropy_field (s : EngineState) (o : WipeOracle) :
    (memory_wipe s o).1.entropy_field =
      { s.entropy_field with global_flux := 0.5 } := by
  by_cases h : s.fork_log.isEmpty <;> simp [memory_wipe, h]

lemma engine_step_non_flux (s : EngineState) (op : EngineOp)
    (h : non_flux_in_range s.entropy_field) :
    non_flux_in_range (engine_step s op).entropy_field := by
  cases op with
  | tick o => exact (tick_in_range s o).2
  | fork n o =>
      show non_flux_in_range (fork_node s n o).2.entropy_field
      rw [fork_entropy_field]; exact h
  | collapse n o =>
      show non_flux_in_range (collapse_node s n o).2.entropy_field
      rw [collapse_entropy_field]; exact h
  | wipe o =>
      show non_flux_in_range (memory_wipe s o).1.entropy_field
      rw [wipe_entropy_field]; exact h

lemma engine_step_flux_nonneg (s : EngineState) (op : EngineOp)
    (h : 0 ≤ s.entropy_field.global_flux) :
    0 ≤ (engine_step s op).entropy_field.global_flux := by
  cases op with
  | tick o => exact (tick_in_range s o).1.1
  | fork n o =>
      show 0 ≤ (fork_node s n o).2.entropy_field.global_flux
      rw [fork_entropy_field]
      exact mul_nonneg h (by norm_num)
  | collapse n o =>
      show 0 ≤ (collapse_node s n o).2.entropy_field.global_flux
      rw [collapse_entropy_field]
      exact mul_nonneg h (by norm_num)
  | wipe o =>
      show 0 ≤ (memory_wipe s o).1.entropy_field.global_flux
      rw [wipe_entropy_field]
      norm_num

lemma engine_step_in_range (s : EngineState) (op : EngineOp)
    (h : field_in_range s.entropy_field) (hf : op.is_fork = false) :
    field_in_range (engine_step s op).entropy_field := by
  cases op with
  | tick o => exact tick_in_range s o
  | fork n o => simp [EngineOp.is_fork] at hf
  | collapse n o =>
      show field_in_range (collapse_node s n o).2.entropy_field
      rw [collapse_entropy_field]
      refine ⟨⟨mul_nonneg h.1.1 (by norm_num), ?_⟩, h.2⟩
      calc s.entropy_field.global_flux * 0.95 ≤ 1 * 0.95 :=
            mul_le_mul_of_nonneg_right h.1.2 (by norm_num)
        _ ≤ 1 := by norm_num
  | wipe o =>
      show field_in_range (memory_wipe s o).1.entropy_field
      rw [wipe_entropy_field]
      exact ⟨⟨by norm_num, by norm_num⟩, h.2⟩

lemma engine_foldl_weak (ops : List EngineOp) : ∀ s : EngineState,
    non_flux_in_range s.entropy_field → 0 ≤ s.entropy_field.global_flux →
    non_flux_in_range ((ops.foldl engine_step s).entropy_field) ∧
      0 ≤ (ops.foldl engine_step s).entropy_field.global_flux := by
  induction ops with
  | nil => exact fun s h1 h2 => ⟨h1, h2⟩
  | cons op rest ih =>
      intro s h1 h2
      exact ih _ (engine_step_non_flux s op h1) (engine_step_flux_nonneg s op h2)

lemma engine_foldl_strong (ops : List EngineOp) : ∀ s : EngineState,
    field_in_range s.entropy_field → (∀ op ∈ ops, op.is_fork = false) →
    field_in_range ((ops.foldl engine_step s).entropy_field) := by
  induction ops with
  | nil => exact fun s h _ => h
  | cons op rest ih =>
      intro s h hops
      exact ih _ (engine_step_in_range s op h (hops op (List.mem_cons_self op rest)))
        (fun op' h' => hops op' (List.mem_cons_of_mem _ h'))

/-- A concrete entropy field with every scalar in range and the flux at
its upper bound. -/
def sample_field : EntropyField :=
  { global_flux := 1, enclave_resonance := [("void_nexus", 1/2)],
    glyph_harmonics := [("▲", 1/2)], temporal_distortion := 0, market_volatility := 1/2 }

/-- A concrete engine state used by counterexamples and witnesses. -/
def sample_state : EngineState :=
  { node_id := "Xi-Void-404", entropy_level := 1/2, time_salt := 100, identity_fragments := 50,
    fork_log := [], anomaly_echoes := [], sentient_logs := [], active_enclave := none,
    current_drift_map := none, entropy_field := sample_field }

/-- A concrete sentient-log oracle instance. -/
def sample_sentient_oracle : SentientOracle :=
  { creation_timestamp := "t", sentience_level := 1/2, autonomy_level := 0,
    behavior := "observer", activity_timestamp := "t", influence_radius := 1/5 }

/-- A concrete fork oracle instance. -/
def sample_fork_oracle : ForkOracle :=
  { suffix := 1234, timestamp := "t", glyph_state := ["▲", "⊗", "≈"],
    sentience_probability := 0, temporal_signature := "sig",
    resonance_potential := 1/2, stability_bias := 0, elemental_inclination := "void",
    sentient := sample_sentient_oracle }

unseal Rat.ofScientific Rat.add Rat.mul Rat.inv Rat.sub in
/-- Counterexample to C1 as stated: from a state with every scalar in
range and `global_flux = 1`, one `fork_node` call multiplies the flux by
`1.05` without clamping, leaving `global_flux = 21/20 > 1`. -/
theorem c1_counterexample :
    field_in_range sample_state.entropy_field ∧
    (engine_step sample_state (.fork none sample_fork_oracle)).entropy_field.global_flux =
      21 / 20 ∧
    ¬ field_in_range (engine_step sample_state (.fork none sample_fork_oracle)).entropy_field :=
  ⟨by decide, by decide, by decide⟩

/-- C1 amended: over every sequence of tick and lifecycle calls from an
in-range state, every scalar except `global_flux` stays in its declared
range and `global_flux` stays nonnegative; when the sequence contains no
`fork_node` call, `global_flux` also stays in `[0, 1]`.  (`fork_node`
multiplies the flux by `1.05` unclamped, so it alone can push it above
`1`.) -/
theorem c1_range_invariant (s0 : EngineState) (ops : List EngineOp)
    (h0 : field_in_range s0.entropy_field) :
    non_flux_in_range (ops.foldl engine_step s0).entropy_field ∧
    0 ≤ (ops.foldl engine_step s0).entropy_field.global_flux ∧
    ((∀ op ∈ ops, op.is_fork = false) →
      field_in_range (ops.foldl engine_step s0).entropy_field) := by
  obtain ⟨h1, h2⟩ := engine_foldl_weak ops s0 h0.2 h0.1.1
  exact ⟨h1, h2, fun hops => engine_foldl_strong ops s0 h0 hops⟩

/-- A concrete tick oracle instance. -/
def sample_tick_oracle : TickOracle :=
  { flux_change := 1/10, resonance_change := fun _ => 0, harmonic_change := fun _ => 0,
    temporal_change := 0, volatility_change := 0 }

unseal Rat.ofScientific Rat.add Rat.mul Rat.inv Rat.sub in
/-- Witness for the amended C1 at a concrete state and a one-tick
sequence. -/
theorem c1_witness :
    non_flux_in_range
      ([EngineOp.tick sample_tick_oracle].foldl engine_step sample_state).entropy_field ∧
    0 ≤ ([EngineOp.tick sample_tick_oracle].foldl engine_step
        sample_state).entropy_field.global_flux ∧
    field_in_range
      ([EngineOp.tick sample_tick_oracle].foldl engine_step sample_state).entropy_field := by
  have h := c1_range_invariant sample_state [EngineOp.tick sample_tick_oracle] (by decide)
  exact ⟨h.1, h.2.1, h.2.2 (by decide)⟩

/-! ### Discovery resonance (C4) -/

/-- The resonance the claim assigns to one token pair: the fixed symmetric
table over elemental categories (`1.0` on the diagonal), with the default
`0.5` for a pair whose elements are not in the table — also when a token
has no elemental affinity at all.  This definition follows the words of
the claim, for comparison with `calculate_total_resonance`. -/
def claim_pair_resonance (g1 g2 : String) : ℚ :=
  match assoc_find elemental_assignments g1, assoc_find elemental_assignments g2 with
  | some e1, some e2 => if e1 == e2 then 1 else calculate_elemental_resonance e1 e2
  | _, _ => 0.5

/-- C4 as written: the plain average of the pair resonance over all
unordered token pairs, every pair contributing. -/
def claim_avg_resonance (glyphs : List String) : ℚ :=
  ((pairs_of glyphs).map fun p => claim_pair_resonance p.1 p.2).sum /
    ((pairs_of glyphs).length : ℚ)

/-- The pairs the loop of `_calculate_total_resonance` actually counts:
those whose both tokens have an elemental affinity. -/
def counted_pairs (glyphs : List String) : List (String × String) :=
  (pairs_of glyphs).filter fun p =>
    ((assoc_find elemental_assignments p.1).isSome &&
      (assoc_find elemental_assignments p.2).isSome)

/-- The amended average: only counted pairs contribute to the sum and the
count, and the division is by `max 1 (number of counted pairs)`. -/
def amended_avg_resonance (glyphs : List String) : ℚ :=
  ((counted_pairs glyphs).map fun p => claim_pair_resonance p.1 p.2).sum /
    ((max 1 (counted_pairs glyphs).length : ℕ) : ℚ)

lemma affinity_value_mem (g e : String) (h : assoc_find elemental_assignments g = some e) :
    e ∈ elements_list := by
  unfold assoc_find at h
  rcases Option.map_eq_some'.mp h with ⟨kv, hfind, hsnd⟩
  have hmem := List.mem_of_find?_eq_some hfind
  subst hsnd
  fin_cases hmem <;> decide

lemma matrix_lookup_unknown : assoc_find initial_resonance_matrix "unknown" = none := by decide

unseal Rat.ofScientific Rat.add Rat.mul Rat.inv Rat.sub in
lemma matrix_row_unknown : ∀ e1 ∈ elements_list,
    (match assoc_find initial_resonance_matrix e1 with
      | some row => assoc_find row "unknown"
      | none => none) = none := by decide

unseal Rat.ofScientific Rat.add Rat.mul Rat.inv Rat.sub in
lemma matrix_lookup_eq : ∀ e1 ∈ elements_list, ∀ e2 ∈ elements_list,
    (match assoc_find initial_resonance_matrix e1 with
      | some row => assoc_find row e2
      | none => none) =
    some (if e1 == e2 then (1 : ℚ) else calculate_elemental_resonance e1 e2) := by decide

lemma pair_value_initial (s : AlchemyState)
    (ha : s.elemental_affinities = elemental_assignments)
    (hm : s.resonance_matrix = initial_resonance_matrix) (g1 g2 : String) :
    resonance_pair_value s g1 g2 =
      if ((assoc_find elemental_assignments g1).isSome &&
          (assoc_find elemental_assignments g2).isSome)
      then some (claim_pair_resonance g1 g2) else none := by
  unfold resonance_pair_value
  rw [ha, hm]
  cases h1 : assoc_find elemental_assignments g1 with
  | none =>
      simp only [h1, Option.getD_none, Option.isSome_none, Bool.false_and, Bool.false_eq_true,
        if_false]
      rw [matrix_lookup_unknown]
  | some e1 =>
      have he1 := affinity_value_mem g1 e1 h1
      cases h2 : assoc_find elemental_assignments g2 with
      | none =>
          simp only [h1, h2, Option.getD_some, Option.getD_none, Option.isSome_none,
            Bool.and_false, Bool.false_eq_true, if_false]
          exact matrix_row_unknown e1 he1
      | some e2 =>
          have he2 := affinity_value_mem g2 e2 h2
          simp only [h1, h2, Option.getD_some, Option.isSome_some, Bool.and_self, if_true,
            claim_pair_resonance]
          exact matrix_lookup_eq e1 he1 e2 he2

lemma resonance_fold (s : AlchemyState)
    (ha : s.elemental_affinities = elemental_assignments)
    (hm : s.resonance_matrix = initial_resonance_matrix) :
    ∀ (l : List (String × String)) (t : ℚ) (c : ℕ),
      l.foldl (fun acc p =>
        match resonance_pair_value s p.1 p.2 with
        | some r => (acc.1 + r, acc.2 + 1)
        | none => acc) (t, c) =
      (t + ((l.filter fun p => ((assoc_find elemental_assignments p.1).isSome &&
              (assoc_find elemental_assignments p.2).isSome)).map
              fun p => claim_pair_resonance p.1 p.2).sum,
       c + (l.filter fun p => ((assoc_find elemental_assignments p.1).isSome &&
              (assoc_find elemental_assignments p.2).isSome)).length) := by
  intro l
  induction l with
  | nil => intro t c; simp
  | cons p rest ih =>
      intro t c
      rw [List.foldl_cons, pair_value_initial s ha hm p.1 p.2]
      by_cases hp : ((assoc_find elemental_assignments p.1).isSome &&
          (assoc_find elemental_assignments p.2).isSome) = true
      · simp only [hp, if_true]
        rw [ih]
        simp only [List.filter_cons, hp, if_true, List.map_cons, List.sum_cons,
          List.length_cons, Prod.mk.injEq]
        constructor
        · ring
        · omega
      · simp only [Bool.not_eq_true] at hp
        simp only [hp, Bool.false_eq_true, if_false]
        rw [ih]
        simp only [List.filter_cons, hp, Bool.false_eq_true, if_false]

lemma total_resonance_initial (s : AlchemyState)
    (ha : s.elemental_affinities = elemental_assignments)
    (hm : s.resonance_matrix = initial_resonance_matrix)
    (glyphs : List String) (h2 : 2 ≤ glyphs.length) :
    calculate_total_resonance s glyphs = amended_avg_resonance glyphs := by
  unfold calculate_total_resonance
  rw [if_neg (by omega)]
  rw [resonance_fold s ha hm (pairs_of glyphs) 0 0]
  unfold amended_avg_resonance counted_pairs
  simp

/-- C4 amended: on the initialized elemental system, the discovery branch
computes the average pairwise elemental resonance over the token pairs
whose both elements appear in the affinity table — pairs with unknown
elements are skipped entirely, not defaulted to `0.5`, and the average is
`0` when no pair qualifies — and the discovery probability equals
`min(0.8, avgResonance*0.3 + masteryLevel*0.1)`. -/
theorem c4_discovery_resonance (hexdigest : String → List Char) (s : AlchemyState)
    (glyphs : List String) (o : CombineOracle)
    (ha : s.elemental_affinities = elemental_assignments)
    (hm : s.resonance_matrix = initial_resonance_matrix)
    (h2 : 2 ≤ glyphs.length) (_h5 : glyphs.length ≤ 5) :
    calculate_total_resonance s glyphs = amended_avg_resonance glyphs ∧
    (discover_new_combination hexdigest s glyphs o).1.discovery_chance =
      some (min 0.8 (amended_avg_resonance glyphs * 0.3 + s.mastery_level * 0.1)) := by
  have ht := total_resonance_initial s ha hm glyphs h2
  refine ⟨ht, ?_⟩
  unfold discover_new_combination
  dsimp only
  split <;> simp [apply_failure_result, ht]

unseal Rat.ofScientific Rat.add Rat.mul Rat.inv Rat.sub in
/-- Counterexample to C4 as stated: for the unknown tokens `["X", "Y"]`
(no elemental affinity), the code computes average resonance `0` and
discovery probability `0`, while the claimed default-`0.5` average would
give probability `min(0.8, 0.5*0.3 + 0*0.1) = 3/20`. -/
theorem c4_counterexample :
    (discover_new_combination sample_hexdigest (initial_alchemy_state sample_hexdigest)
        ["X", "Y"] sample_oracle).1.discovery_chance = some 0 ∧
    min 0.8 (claim_avg_resonance ["X", "Y"] * 0.3 +
      (initial_alchemy_state sample_hexdigest).mastery_level * 0.1) = 3 / 20 ∧
    ((0 : ℚ) ≠ 3 / 20) :=
  ⟨by decide, by decide, by decide⟩

unseal Rat.ofScientific Rat.add Rat.mul Rat.inv Rat.sub in
/-- Witness for the amended C4 at the 2-token input `["▲", "≈"]` on the
freshly initialized system. -/
theorem c4_witness :
    calculate_total_resonance (initial_alchemy_state sample_hexdigest) ["▲", "≈"] =
      amended_avg_resonance ["▲", "≈"] ∧
    (discover_new_combination sample_hexdigest (initial_alchemy_state sample_hexdigest)
        ["▲", "≈"] sample_oracle).1.discovery_chance =
      some (min 0.8 (amended_avg_resonance ["▲", "≈"] * 0.3 +
        (initial_alchemy_state sample_hexdigest).mastery_level * 0.1)) :=
  c4_discovery_resonance sample_hexdigest _ ["▲", "≈"] sample_oracle rfl rfl
    (by decide) (by decide)

/-! ### Registry state machine (C5) -/

lemma discover_known_of_failure (hexdigest : String → List Char) (s : AlchemyState)
    (g : List String) (o : CombineOracle)
    (h : (discover_new_combination hexdigest s g o).1.success = false) :
    (discover_new_combination hexdigest s g o).2.known_combinations = s.known_combinations := by
  unfold discover_new_combination at h ⊢
  by_cases hroll : o.success_roll <
      min 0.8 (calculate_total_resonance s g * 0.3 + s.mastery_level * 0.1)
  · simp [hroll] at h
  · simp [hroll]

lemma discover_known_of_success (hexdigest : String → List Char) (s : AlchemyState)
    (g : List String) (o : CombineOracle)
    (h : (discover_new_combination hexdigest s g o).1.success = true) :
    (discover_new_combination hexdigest s g o).2.known_combinations =
      dict_insert s.known_combinations (generate_pattern_key hexdigest g)
        (generate_new_combination g (calculate_total_resonance s g) o).1 := by
  unfold discover_new_combination at h ⊢
  by_cases hroll : o.success_roll <
      min 0.8 (calculate_total_resonance s g * 0.3 + s.mastery_level * 0.1)
  · simp [hroll]
  · simp [hroll, apply_failure_result] at h

lemma execute_known_rtype (s : AlchemyState) (base : CombRecord) (pk : String)
    (g : List String) (o : CombineOracle) :
    (execute_known_combination s base pk g o).rtype = .known_combination := by
  unfold execute_known_combination apply_failure_result
  dsimp only
  split <;> rfl

lemma assoc_find_append_of_none {α : Type} (l : List (String × α)) (k : String) (v : α)
    (h : assoc_find l k = none) : assoc_find (l ++ [(k, v)]) k = some v := by
  have h' : l.find? (fun kv => kv.1 == k) = none := by
    unfold assoc_find at h
    exact Option.map_eq_none'.mp h
  unfold assoc_find
  simp [List.find?_append, h', List.find?_cons]

lemma dict_insert_append {α : Type} (l : List (String × α)) (k : String) (v : α)
    (h : assoc_find l k = none) : dict_insert l k v = l ++ [(k, v)] := by
  simp [dict_insert, h]

lemma combine_glyphs_ok (hexdigest : String → List Char) (s : AlchemyState)
    (g : List String) (o : CombineOracle) (r : CombineResult) (s' : AlchemyState)
    (h : combine_glyphs hexdigest s g o = .ok (r, s')) :
    2 ≤ g.length ∧ g.length ≤ 5 ∧
    ((∃ base, assoc_find s.known_combinations (generate_pattern_key hexdigest g) = some base ∧
        r = execute_known_combination s base (generate_pattern_key hexdigest g) g o ∧
        s' = update_mastery (record_combination s g r o.timestamp)) ∨
      (assoc_find s.known_combinations (generate_pattern_key hexdigest g) = none ∧
        r = (discover_new_combination hexdigest s g o).1 ∧
        s' = update_mastery (record_combination
          (discover_new_combination hexdigest s g o).2 g r o.timestamp))) := by
  unfold combine_glyphs at h
  by_cases h2 : g.length < 2
  · simp [h2] at h
  · by_cases h5 : g.length > 5
    · simp [h2, h5] at h
    · refine ⟨by omega, by omega, ?_⟩
      simp only [h2, h5, if_false] at h
      cases hk : assoc_find s.known_combinations (generate_pattern_key hexdigest g) with
      | some base =>
          left
          simp only [hk] at h
          rw [Except.ok.injEq, Prod.mk.injEq] at h
          obtain ⟨hr, hs⟩ := h
          exact ⟨base, rfl, hr.symm, by rw [← hs, ← hr]⟩
      | none =>
          right
          simp only [hk] at h
          rw [Except.ok.injEq, Prod.mk.injEq] at h
          obtain ⟨hr, hs⟩ := h
          exact ⟨rfl, hr.symm, by rw [← hs, ← hr]⟩

lemma combine_glyphs_ok_exists (hexdigest : String → List Char) (s : AlchemyState)
    (g : List String) (o : CombineOracle) (h2 : 2 ≤ g.length) (h5 : g.length ≤ 5) :
    ∃ rs, combine_glyphs hexdigest s g o = .ok rs := by
  unfold combine_glyphs
  have h2' : ¬ g.length < 2 := by omega
  have h5' : ¬ g.length > 5 := by omega
  simp only [h2', h5', if_false]
  exact ⟨_, rfl⟩

/-- C5: a resolution returning a Failure outcome (`success = false`) never
changes the combination registry; and after a successful Discovery for a
token list, a second `combine_glyphs` call with any permutation of the
same tokens takes the known-combination branch, not the discovery
branch. -/
theorem c5_registry_discipline (hexdigest : String → List Char) :
    (∀ (s : AlchemyState) (g : List String) (o : CombineOracle) (r : CombineResult)
      (s' : AlchemyState), combine_glyphs hexdigest s g o = .ok (r, s') → r.success = false →
      s'.known_combinations = s.known_combinations) ∧
    (∀ (s : AlchemyState) (g : List String) (o : CombineOracle) (r : CombineResult)
      (s' : AlchemyState), combine_glyphs hexdigest s g o = .ok (r, s') →
      r.rtype = .new_discovery → r.success = true →
      ∀ (g2 : List String) (o2 : CombineOracle) (r2 : CombineResult) (s2 : AlchemyState),
        g2.Perm g → combine_glyphs hexdigest s' g2 o2 = .ok (r2, s2) →
        r2.rtype = .known_combination) := by
  constructor
  · intro s g o r s' hcomb hfail
    obtain ⟨h2, h5, hcase⟩ := combine_glyphs_ok hexdigest s g o r s' hcomb
    rcases hcase with ⟨base, hk, hr, hs⟩ | ⟨hk, hr, hs⟩
    · subst hs; rw [update_mastery_known, record_combination_known]
    · subst hs
      rw [update_mastery_known, record_combination_known]
      apply discover_known_of_failure
      rw [← hr]; exact hfail
  · intro s g o r s' hcomb hdisc hsucc g2 o2 r2 s2 hperm hcomb2
    obtain ⟨h2, h5, hcase⟩ := combine_glyphs_ok hexdigest s g o r s' hcomb
    rcases hcase with ⟨base, hk, hr, hs⟩ | ⟨hk, hr, hs⟩
    · rw [hr, execute_known_rtype] at hdisc
      exact absurd hdisc (by decide)
    · have hins := discover_known_of_success hexdigest s g o (by rw [← hr]; exact hsucc)
      obtain ⟨h2', h5', hcase2⟩ := combine_glyphs_ok hexdigest s' g2 o2 r2 s2 hcomb2
      rcases hcase2 with ⟨base2, hk2, hr2, _⟩ | ⟨hk2, hr2, _⟩
      · rw [hr2]; exact execute_known_rtype _ _ _ _ _
      · exfalso
        rw [generate_pattern_key_perm hexdigest hperm] at hk2
        have hsome : assoc_find s'.known_combinations (generate_pattern_key hexdigest g) =
            some (generate_new_combination g (calculate_total_resonance s g) o).1 := by
          rw [hs, update_mastery_known, record_combination_known, hins,
            dict_insert_append _ _ _ hk]
          exact assoc_find_append_of_none _ _ _ hk
        rw [hsome] at hk2
        cases hk2

/-- The oracle instance whose zero success roll makes a positive-chance
discovery succeed. -/
def discovery_oracle : CombineOracle :=
  { sample_oracle with success_roll := 0 }

unseal Rat.ofScientific Rat.add Rat.mul Rat.inv Rat.sub in
/-- Witness for C5: on the initialized system, a failed discovery for
`["▲", "∇"]` leaves the registry unchanged, and after a successful
discovery for `["▲", "≈"]` a second call with the permuted `["≈", "▲"]`
takes the known-combination branch. -/
theorem c5_witness :
    (match combine_glyphs sample_hexdigest (initial_alchemy_state sample_hexdigest)
        ["▲", "∇"] sample_oracle with
     | .ok rs =>
        rs.2.known_combinations = (initial_alchemy_state sample_hexdigest).known_combinations
     | .error _ => False) ∧
    (match combine_glyphs sample_hexdigest (initial_alchemy_state sample_hexdigest)
        ["▲", "≈"] discovery_oracle with
     | .ok rs =>
        (match combine_glyphs sample_hexdigest rs.2 ["≈", "▲"] sample_oracle with
         | .ok rs2 => rs2.1.rtype = .known_combination
         | .error _ => False)
     | .error _ => False) := by
  constructor
  · cases hE : combine_glyphs sample_hexdigest (initial_alchemy_state sample_hexdigest)
        ["▲", "∇"] sample_oracle with
    | error e =>
        have hok : (combine_glyphs sample_hexdigest (initial_alchemy_state sample_hexdigest)
            ["▲", "∇"] sample_oracle).toOption.isSome = true := by decide
        rw [hE] at hok
        simp [Except.toOption] at hok
    | ok rs =>
        have hfail : (combine_glyphs sample_hexdigest (initial_alchemy_state sample_hexdigest)
            ["▲", "∇"] sample_oracle).toOption.map (fun p => p.1.success) = some false := by
          decide
        rw [hE] at hfail
        simp only [Except.toOption, Option.map_some', Option.some.injEq] at hfail
        dsimp only
        exact (c5_registry_discipline sample_hexdigest).1 _ _ _ rs.1 rs.2 (by rw [hE]) hfail
  · cases hE1 : combine_glyphs sample_hexdigest (initial_alchemy_state sample_hexdigest)
        ["▲", "≈"] discovery_oracle with
    | error e =>
        have hok : (combine_glyphs sample_hexdigest (initial_alchemy_state sample_hexdigest)
            ["▲", "≈"] discovery_oracle).toOption.isSome = true := by decide
        rw [hE1] at hok
        simp [Except.toOption] at hok
    | ok rs =>
        dsimp only
        cases hE2 : combine_glyphs sample_hexdigest rs.2 ["≈", "▲"] sample_oracle with
        | error e =>
            obtain ⟨rs2, hok2⟩ := combine_glyphs_ok_exists sample_hexdigest rs.2 ["≈", "▲"]
              sample_oracle (by decide) (by decide)
            exact Except.noConfusion (hok2.symm.trans hE2)
        | ok rs2 =>
            have hdisc : (combine_glyphs sample_hexdigest (initial_alchemy_state sample_hexdigest)
                ["▲", "≈"] discovery_oracle).toOption.map (fun p => p.1.rtype) =
                  some CombineType.new_discovery := by decide
            have hsucc : (combine_glyphs sample_hexdigest (initial_alchemy_state sample_hexdigest)
                ["▲", "≈"] discovery_oracle).toOption.map (fun p => p.1.success) =
                  some true := by decide
            rw [hE1] at hdisc hsucc
            simp only [Except.toOption, Option.map_some', Option.some.injEq] at hdisc hsucc
            exact (c5_registry_discipline sample_hexdigest).2 _ _ _ rs.1 rs.2 (by rw [hE1])
              hdisc hsucc ["≈", "▲"] sample_oracle rs2.1 rs2.2
              (List.Perm.swap "▲" "≈" []) (by rw [hE2])

/-! ### Drift map generation (C6) -/

/-- A concrete cell-choice oracle. -/
def sample_cell : ℕ → ℕ → ℕ := fun _ _ => 0

/-- C6, evaluated at the failing input `width = 5, height = 5`: because the
source appends each row to itself (`row.append(row)`) instead of to
`drift_map`, the returned drift map is the empty list — not a grid of
`height` rows — for every state; the call indeed never touches the fork
log. -/
theorem c6_drift_map_empty :
    (generate_drift_map sample_state sample_cell 5 5).1 = [] ∧
    ((generate_drift_map sample_state sample_cell 5 5).1.length = 0 ∧ (0 : ℕ) ≠ 5) ∧
    (∀ (s : EngineState) (cell : ℕ → ℕ → ℕ) (width height : ℕ),
      (generate_drift_map s cell width height).1 = [] ∧
      (generate_drift_map s cell width height).2.fork_log = s.fork_log) :=
  ⟨rfl, ⟨rfl, by decide⟩, fun _ _ _ _ => ⟨rfl, rfl⟩⟩

/-! ### Fracture engine field corruption (C7) -/

/-- Counterexample to C7 as stated: the 5-character string `Xi-42`, once
selected for corruption, becomes the 4-character `Xi██` — the corrupted
string does not have the same length as the original for odd lengths. -/
theorem c7_counterexample :
    fracture_data (fun _ => true) [("node_id", Value.VStr ['X', 'i', '-', '4', '2'])] =
      [("node_id", Value.VStr ['X', 'i', '█', '█'])] ∧
    (['X', 'i', '█', '█'] : List Char).length ≠ (['X', 'i', '-', '4', '2'] : List Char).length :=
  ⟨rfl, by decide⟩

/-- C7 amended: a selected string field longer than 3 characters keeps its
first `len/2` characters followed by `len/2` block glyphs, so the
corrupted string has length `2*(len/2)` — equal to the original only for
even lengths; a selected string of at most 3 characters becomes `len`
block glyphs; a selected numeric field becomes the placeholder `###`; an
unselected field passes through unchanged. -/
theorem c7_fracture_fields (sel : String → Bool) (data : Record) :
    (∀ (k : String) (s : List Char), (k, Value.VStr s) ∈ data → sel k = true → 3 < s.length →
      ((k, Value.VStr (s.take (s.length / 2) ++ List.replicate (s.length / 2) '█')) ∈
          fracture_data sel data ∧
        (s.take (s.length / 2) ++ List.replicate (s.length / 2) '█').length =
          2 * (s.length / 2))) ∧
    (∀ (k : String) (s : List Char), (k, Value.VStr s) ∈ data → sel k = true → s.length ≤ 3 →
      (k, Value.VStr (List.replicate s.length '█')) ∈ fracture_data sel data) ∧
    (∀ (k : String) (n : ℤ), (k, Value.VInt n) ∈ data → sel k = true →
      (k, Value.VStr ['#', '#', '#']) ∈ fracture_data sel data) ∧
    (∀ (k : String) (q : ℚ), (k, Value.VFloat q) ∈ data → sel k = true →
      (k, Value.VStr ['#', '#', '#']) ∈ fracture_data sel data) ∧
    (∀ (k : String) (v : Value), (k, v) ∈ data → sel k = false →
      (k, v) ∈ fracture_data sel data) := by
  refine ⟨?_, ?_, ?_, ?_, ?_⟩
  · intro k s hmem hsel h3
    constructor
    · have h := List.mem_map_of_mem
        (f := fun kv : String × Value => if sel kv.1 then (kv.1, corrupt_value kv.2) else kv) hmem
      simpa [fracture_data, corrupt_value, hsel, h3] using h
    · simp only [List.length_append, List.length_take, List.length_replicate]
      omega
  · intro k s hmem hsel h3
    have h := List.mem_map_of_mem
      (f := fun kv : String × Value => if sel kv.1 then (kv.1, corrupt_value kv.2) else kv) hmem
    have h3' : ¬ s.length > 3 := by omega
    simpa [fracture_data, corrupt_value, hsel, h3'] using h
  · intro k n hmem hsel
    have h := List.mem_map_of_mem
      (f := fun kv : String × Value => if sel kv.1 then (kv.1, corrupt_value kv.2) else kv) hmem
    simpa [fracture_data, corrupt_value, hsel] using h
  · intro k q hmem hsel
    have h := List.mem_map_of_mem
      (f := fun kv : String × Value => if sel kv.1 then (kv.1, corrupt_value kv.2) else kv) hmem
    simpa [fracture_data, corrupt_value, hsel] using h
  · intro k v hmem hsel
    have h := List.mem_map_of_mem
      (f := fun kv : String × Value => if sel kv.1 then (kv.1, corrupt_value kv.2) else kv) hmem
    simpa [fracture_data, hsel] using h

/-- The per-field corruption draws of the C7 witness: every field except
`e` is selected. -/
def c7_sel : String → Bool := fun k => !(k == "e")

/-- The concrete record of the C7 witness. -/
def c7_data : Record :=
  [("a", .VStr ['h', 'e', 'l', 'l', 'o']), ("b", .VStr ['a', 'b']),
   ("c", .VInt 7), ("d", .VFloat 0), ("e", .VStr ['k', 'e', 'e', 'p'])]

/-- Witness for the amended C7 on a record with a long string, a short
string, an int, a float and an unselected field. -/
theorem c7_witness :
    (("a", Value.VStr ['h', 'e', '█', '█']) ∈ fracture_data c7_sel c7_data ∧
      (['h', 'e', '█', '█'] : List Char).length =
        2 * ((['h', 'e', 'l', 'l', 'o'] : List Char).length / 2)) ∧
    ("b", Value.VStr ['█', '█']) ∈ fracture_data c7_sel c7_data ∧
    ("c", Value.VStr ['#', '#', '#']) ∈ fracture_data c7_sel c7_data ∧
    ("d", Value.VStr ['#', '#', '#']) ∈ fracture_data c7_sel c7_data ∧
    ("e", Value.VStr ['k', 'e', 'e', 'p']) ∈ fracture_data c7_sel c7_data := by
  have h := c7_fracture_fields c7_sel c7_data
  refine ⟨?_, ?_, ?_, ?_, ?_⟩
  · exact h.1 "a" ['h', 'e', 'l', 'l', 'o'] (List.Mem.head _) (by decide) (by decide)
  · exact h.2.1 "b" ['a', 'b'] (List.Mem.tail _ (List.Mem.head _)) (by decide) (by decide)
  · exact h.2.2.1 "c" 7 (List.Mem.tail _ (List.Mem.tail _ (List.Mem.head _))) (by decide)
  · exact h.2.2.2.1 "d" 0
      (List.Mem.tail _ (List.Mem.tail _ (List.Mem.tail _ (List.Mem.head _)))) (by decide)
  · exact h.2.2.2.2 "e" (Value.VStr ['k', 'e', 'e', 'p'])
      (List.Mem.tail _ (List.Mem.tail _ (List.Mem.tail _ (List.Mem.tail _ (List.Mem.head _)))))
      (by decide)

end RDE
